import Mathlib

/-!
Verification of the Timezone Boundary & Interval Overlap Engine of the
timew-formatter repository.

The development shallowly embeds the relevant JavaScript source files:

* `src/src/database/duplicates.js` — overlap detection and the duplicate
  guard (`timeRangesOverlap`, `hasEntriesInDateRange`,
  `checkDateRangeOverlap`, `blockInsertionIfOverlap`, `validateDateRange`);
* `src/database/timezone.js` (provided as `src/unnamed/part_004`) —
  Taipei (UTC+8) boundary arithmetic (`calculateDateBoundaries`,
  `convertToTaipeiTime`, `getTaipeiCalendarDate`, `isWithinDateBoundaries`);
* `src/src/database/connection.js` — batch validation (`validateEntries`
  and its helper predicates).

Timestamps are modelled as integers (milliseconds since the Unix epoch),
the representation JavaScript `Date` objects use internally; all `Date`
comparisons in the source compare exactly these numbers.  JavaScript
calendar arithmetic (`Date.UTC`, `Date.prototype.toISOString`) is modelled
by the proleptic-Gregorian civil-day conversions required by ECMA-262,
including the `MakeFullYear` rule that maps year arguments 0–99 to
1900–1999.
-/

namespace TimewFormatter

/-! ## Interval overlap (`timeRangesOverlap`, duplicates.js lines 83–98)

A persisted or candidate interval carries a start timestamp and an
optional end timestamp; a missing (`null`) end means the activity is
still ongoing.  `none` models the falsy `endTime` of the JavaScript
record.
-/

/-- Model of `timeRangesOverlap(start1, end1, start2, end2)`
(duplicates.js lines 83–98).  The JS body is
`if (!e1 || !e2) return !e1 ? s2 >= s1 : s1 >= s2;` followed by
`return s1 < e2 && s2 < e1;`; the three match arms reproduce exactly the
three reachable outcomes (`e1` missing — whatever `e2` is —, `e1` present
and `e2` missing, both present). -/
def timeRangesOverlap (s1 : Int) (e1 : Option Int) (s2 : Int) (e2 : Option Int) : Bool :=
  match e1, e2 with
  | none, _ => decide (s2 ≥ s1)
  | some _, none => decide (s1 ≥ s2)
  | some v1, some v2 => decide (s1 < v2) && decide (s2 < v1)

/-! ## The duplicate guard (duplicates.js)

The PostgreSQL table `timewplus_entries` is modelled as a `List Entry`
(the rows, with only the columns the guard inspects); `pool.query` with
`"startTime" >= $1 AND "startTime" <= $2` becomes a filter over that
list.  The `ORDER BY "startTime" ASC` of the overlap query only fixes the
order in which conflicts are reported and is irrelevant to the claims
below, so the model keeps the rows in list order.

The two date-string arguments of every guard entry point are modelled by
`DateArg`: `present` is true when the argument is a string whose trim is
non-empty (the first two checks of `validateDateRange`), and `parsed` is
the millisecond value `new Date(arg)` yields, `none` when the parse is
`NaN`.  The SQL layer subsequently compares row timestamps against the
parsed values, so the validated parse results are returned by the model
of `validateDateRange` for the queries to use.
-/

/-- A row of `timewplus_entries` / a candidate entry: only `startTime`,
`endTime` and `sessionName` are read by the guard.  `endTime = none`
models the SQL `NULL` / falsy `endTime` of an ongoing entry. -/
structure Entry where
  startTime : Int
  endTime : Option Int
  sessionName : String
deriving DecidableEq, Repr

/-- Model of a date-string argument to the guard (see section comment). -/
structure DateArg where
  present : Bool
  parsed : Option Int
deriving DecidableEq, Repr

/-- Result of the inner double loop of `checkDateRangeOverlap`
(duplicates.js lines 171–199), one record per conflicting
(candidate, persisted) pair.  The `taipeiTimes` display field of the
JS object is reconstructible from the two entries and is omitted. -/
structure OverlapRecord where
  newEntry : Entry
  existingEntry : Entry
  overlapType : String
deriving DecidableEq, Repr

/-- The errors thrown by the guard.  Each constructor stands for one
`throw new Error(...)` site of duplicates.js: the five validation
messages of `validateDateRange` (lines 25–48) and the
`Insertion blocked: ...` error of `blockInsertionIfOverlap`
(line 383), which is generated from — and therefore carries — the
detected overlap records. -/
inductive GuardError
  | startDateRequired
  | endDateRequired
  | invalidStartDateFormat
  | invalidEndDateFormat
  | startAfterEnd
  | insertionBlocked (overlaps : List OverlapRecord)
deriving DecidableEq, Repr

/-- Model of `validateDateRange(startDate, endDate)` (duplicates.js
lines 25–48): presence of both arguments, parsability of both, and
`start ≤ end`, checked in source order.  On success it hands the parsed
millisecond pair to the SQL layer. -/
def validateDateRange (s e : DateArg) : Except GuardError (Int × Int) :=
  if !s.present then .error .startDateRequired
  else if !e.present then .error .endDateRequired
  else
    match s.parsed with
    | none => .error .invalidStartDateFormat
    | some sv =>
      match e.parsed with
      | none => .error .invalidEndDateFormat
      | some ev => if sv > ev then .error .startAfterEnd else .ok (sv, ev)

/-- Model of `hasEntriesInDateRange(pool, startDate, endDate)`
(duplicates.js lines 108–130): validate, then
`SELECT COUNT(*) ... WHERE "startTime" >= $1 AND "startTime" <= $2` and
test `count > 0`. -/
def hasEntriesInDateRange (store : List Entry) (s e : DateArg) : Except GuardError Bool :=
  match validateDateRange s e with
  | .error v => .error v
  | .ok (sv, ev) =>
    .ok (decide ((store.filter
      (fun r => decide (sv ≤ r.startTime) && decide (r.startTime ≤ ev))).length > 0))

/-- The double loop of `checkDateRangeOverlap`: every candidate against
every fetched row, in loop order; a pair that overlaps contributes a
record whose `overlapType` is `"ongoing_conflict"` when
`!existingEntry.endTime || !newEntry.endTime` and `"time_overlap"`
otherwise (duplicates.js lines 181–196). -/
def buildOverlaps (newEntries existing : List Entry) : List OverlapRecord :=
  newEntries.flatMap fun ne =>
    existing.filterMap fun ex =>
      if timeRangesOverlap ne.startTime ne.endTime ex.startTime ex.endTime then
        some { newEntry := ne, existingEntry := ex,
               overlapType :=
                 if ex.endTime.isNone || ne.endTime.isNone then "ongoing_conflict"
                 else "time_overlap" }
      else none

/-- Return value of `checkDateRangeOverlap`. -/
structure CheckResult where
  hasOverlap : Bool
  overlaps : List OverlapRecord
deriving DecidableEq, Repr

/-- Model of `checkDateRangeOverlap(pool, startDate, endDate, newEntries)`
(duplicates.js lines 141–213): validate, short-circuit on an empty
candidate list, fetch the rows whose `startTime` lies in the range, and
run the double loop; `hasOverlap` is `overlaps.length > 0`.  (The
`!Array.isArray` coercion cannot fire: the model's candidate argument is
always a list.) -/
def checkDateRangeOverlap (store : List Entry) (s e : DateArg) (newEntries : List Entry) :
    Except GuardError CheckResult :=
  match validateDateRange s e with
  | .error v => .error v
  | .ok (sv, ev) =>
    if newEntries.length = 0 then .ok { hasOverlap := false, overlaps := [] }
    else
      let existing := store.filter
        (fun r => decide (sv ≤ r.startTime) && decide (r.startTime ≤ ev))
      let ovs := buildOverlaps newEntries existing
      .ok { hasOverlap := decide (ovs.length > 0), overlaps := ovs }

/-- Model of `blockInsertionIfOverlap(pool, startDate, endDate, newEntries)`
(duplicates.js lines 320–385): validate, run the fast existence check,
return successfully when the range is empty, otherwise run the overlap
check and throw the blocking error exactly when it reports an overlap. -/
def blockInsertionIfOverlap (store : List Entry) (s e : DateArg) (newEntries : List Entry) :
    Except GuardError Unit :=
  match validateDateRange s e with
  | .error v => .error v
  | .ok _ =>
    match hasEntriesInDateRange store s e with
    | .error v => .error v
    | .ok false => .ok ()
    | .ok true =>
      match checkDateRangeOverlap store s e newEntries with
      | .error v => .error v
      | .ok res =>
        if res.hasOverlap then .error (.insertionBlocked res.overlaps) else .ok ()

/-! ## Claims C1, C5, C6 — `timeRangesOverlap` -/

/-- C1: with exactly one side open, `timeRangesOverlap` is true iff the
bounded interval's start is ≥ the open interval's start; the bounded
interval's own end is irrelevant (it is universally quantified and does
not occur in the condition), and the answer is the same whichever
argument position the open interval occupies. -/
theorem open_vs_bounded_overlap (sOpen sB eB : Int) :
    (timeRangesOverlap sOpen none sB (some eB) = true ↔ sOpen ≤ sB) ∧
    (timeRangesOverlap sB (some eB) sOpen none = true ↔ sOpen ≤ sB) := by
  constructor <;> simp [timeRangesOverlap, ge_iff_le]

/-- C5: for two bounded intervals, `timeRangesOverlap` is true iff
`s1 < e2 ∧ s2 < e1`; consequently intervals that merely touch at an
endpoint (`e1 = s2` or `e2 = s1`) never overlap. -/
theorem bounded_bounded_overlap (s1 e1 s2 e2 : Int) :
    (timeRangesOverlap s1 (some e1) s2 (some e2) = true ↔ s1 < e2 ∧ s2 < e1) ∧
    ((e1 = s2 ∨ e2 = s1) → timeRangesOverlap s1 (some e1) s2 (some e2) = false) := by
  refine ⟨by simp [timeRangesOverlap], ?_⟩
  rintro (rfl | rfl) <;> simp [timeRangesOverlap]

/-- Witness for C5: back-to-back bounded intervals `[0,5]` and `[5,9]`
touch at `5` and do not overlap. -/
theorem bounded_bounded_overlap_witness :
    timeRangesOverlap 0 (some 5) 5 (some 9) = false :=
  (bounded_bounded_overlap 0 5 5 9).2 (Or.inl rfl)

/-- C6: when both intervals are open and their starts differ, the two
argument orders disagree: `timeRangesOverlap` is not symmetric in the
both-open case (witnessed at starts 0 and 1). -/
theorem both_open_not_symmetric :
    timeRangesOverlap 0 none 1 none ≠ timeRangesOverlap 1 none 0 none := by
  decide

/-! ## Claim C8 — classification of detected overlaps -/

/-- Helper: every record produced by the double loop is classified
`"ongoing_conflict"` exactly when one of its two entries is open. -/
theorem buildOverlaps_classification (newEntries existing : List Entry)
    (r : OverlapRecord) (hr : r ∈ buildOverlaps newEntries existing) :
    (r.overlapType = "ongoing_conflict" ↔
      (r.newEntry.endTime = none ∨ r.existingEntry.endTime = none)) ∧
    (r.overlapType = "ongoing_conflict" ∨ r.overlapType = "time_overlap") := by
  simp only [buildOverlaps, List.mem_flatMap, List.mem_filterMap] at hr
  obtain ⟨ne, -, ex, -, hpair⟩ := hr
  split at hpair
  · cases hpair
    by_cases hex : ex.endTime.isNone <;> by_cases hne : ne.endTime.isNone <;>
      simp_all [Option.isNone_iff_eq_none]
  · cases hpair

/-- C8: every `OverlapRecord` that `checkDateRangeOverlap` reports is
classified `"ongoing_conflict"` iff at least one of the candidate and the
persisted entry is open (has no end), and `"time_overlap"` otherwise. -/
theorem overlap_records_classified (store : List Entry) (s e : DateArg)
    (cands : List Entry) (res : CheckResult) (r : OverlapRecord)
    (hok : checkDateRangeOverlap store s e cands = .ok res)
    (hr : r ∈ res.overlaps) :
    (r.overlapType = "ongoing_conflict" ↔
      (r.newEntry.endTime = none ∨ r.existingEntry.endTime = none)) ∧
    (r.overlapType = "ongoing_conflict" ∨ r.overlapType = "time_overlap") := by
  unfold checkDateRangeOverlap at hok
  rcases hvd : validateDateRange s e with v | ⟨sv, ev⟩ <;> rw [hvd] at hok <;>
    dsimp only at hok
  · cases hok
  · by_cases hc : cands.length = 0
    · rw [if_pos hc] at hok
      cases hok
      simp at hr
    · rw [if_neg hc] at hok
      cases hok
      exact buildOverlaps_classification _ _ r hr

/-- Witness for C8: a candidate that is still open and starts before a
bounded persisted entry produces a record classified
`"ongoing_conflict"`. -/
theorem overlap_records_classified_witness :
    ((OverlapRecord.mk ⟨0, none, "b"⟩ ⟨5, some 10, "a"⟩ "ongoing_conflict").overlapType
        = "ongoing_conflict" ↔
      ((OverlapRecord.mk ⟨0, none, "b"⟩ ⟨5, some 10, "a"⟩ "ongoing_conflict").newEntry.endTime
          = none ∨
        (OverlapRecord.mk ⟨0, none, "b"⟩ ⟨5, some 10, "a"⟩
            "ongoing_conflict").existingEntry.endTime = none)) ∧
    ((OverlapRecord.mk ⟨0, none, "b"⟩ ⟨5, some 10, "a"⟩ "ongoing_conflict").overlapType
        = "ongoing_conflict" ∨
      (OverlapRecord.mk ⟨0, none, "b"⟩ ⟨5, some 10, "a"⟩ "ongoing_conflict").overlapType
        = "time_overlap") :=
  overlap_records_classified [⟨5, some 10, "a"⟩] ⟨true, some 0⟩ ⟨true, some 100⟩
    [⟨0, none, "b"⟩]
    { hasOverlap := true,
      overlaps := [OverlapRecord.mk ⟨0, none, "b"⟩ ⟨5, some 10, "a"⟩ "ongoing_conflict"] }
    (OverlapRecord.mk ⟨0, none, "b"⟩ ⟨5, some 10, "a"⟩ "ongoing_conflict")
    rfl (by simp)

/-! ## Claim C10 — validation precedes every store access -/

/-- The claim's precondition on the two date arguments: start or end
missing (absent / non-string / blank), unparsable (`NaN`), or start
after end. -/
def dateRangeInvalid (s e : DateArg) : Prop :=
  s.present = false ∨ e.present = false ∨ s.parsed = none ∨ e.parsed = none ∨
    ∃ sv ev, s.parsed = some sv ∧ e.parsed = some ev ∧ sv > ev

/-- `validateDateRange` succeeds exactly on present, parsable, ordered
arguments, and then returns their parsed values. -/
theorem validateDateRange_ok_iff (s e : DateArg) (sv ev : Int) :
    validateDateRange s e = .ok (sv, ev) ↔
      s.present = true ∧ e.present = true ∧
        s.parsed = some sv ∧ e.parsed = some ev ∧ sv ≤ ev := by
  rcases s with ⟨sp, spd⟩
  rcases e with ⟨ep, epd⟩
  cases sp <;> cases ep <;> cases spd <;> cases epd <;> simp [validateDateRange]
  rename_i a b
  split_ifs with hab
  · constructor
    · intro h; simp at h
    · rintro ⟨rfl, rfl, h⟩; omega
  · constructor
    · intro h
      simp only [Except.ok.injEq, Prod.mk.injEq] at h
      exact ⟨h.1, h.2, by omega⟩
    · rintro ⟨rfl, rfl, h⟩; rfl

/-- C10: whenever the date-range arguments are missing, unparsable, or
out of order, every guard entry point (`hasEntriesInDateRange`,
`checkDateRangeOverlap`, `blockInsertionIfOverlap`) fails with the very
validation error `validateDateRange` raises, uniformly in the store and
the candidate list — i.e. before and independently of any store
access. -/
theorem guard_validates_before_store (s e : DateArg) (h : dateRangeInvalid s e) :
    ∃ v : GuardError, validateDateRange s e = .error v ∧
      ∀ store cands,
        hasEntriesInDateRange store s e = .error v ∧
        checkDateRangeOverlap store s e cands = .error v ∧
        blockInsertionIfOverlap store s e cands = .error v := by
  rcases hvd : validateDateRange s e with v | ⟨sv, ev⟩
  · exact ⟨v, rfl, fun store cands => by
      simp [hasEntriesInDateRange, checkDateRangeOverlap, blockInsertionIfOverlap, hvd]⟩
  · exfalso
    rw [validateDateRange_ok_iff] at hvd
    obtain ⟨h1, h2, h3, h4, h5⟩ := hvd
    rcases h with h | h | h | h | ⟨sv', ev', hs', he', hlt⟩ <;> simp_all
    omega

/-- Witness for C10: a missing start date makes all three entry points
fail with `startDateRequired` on every store. -/
theorem guard_validates_before_store_witness :
    ∃ v : GuardError, validateDateRange ⟨false, none⟩ ⟨true, some 0⟩ = .error v ∧
      ∀ store cands,
        hasEntriesInDateRange store ⟨false, none⟩ ⟨true, some 0⟩ = .error v ∧
        checkDateRangeOverlap store ⟨false, none⟩ ⟨true, some 0⟩ cands = .error v ∧
        blockInsertionIfOverlap store ⟨false, none⟩ ⟨true, some 0⟩ cands = .error v :=
  guard_validates_before_store ⟨false, none⟩ ⟨true, some 0⟩ (Or.inl rfl)

/-! ## Claim C2 — admission against an empty store, and against a store
holding an identical interval

The second half of the claim is false as stated: a *zero-length* bounded
interval (`start = end`) stored in the queried range does not block an
identical candidate, because `timeRangesOverlap` demands strict
inequalities (`s1 < e2 ∧ s2 < e1` fails when `s1 = e1 = s2 = e2`).  The
counterexample below exhibits this; the amended theorem adds the one
hypothesis the counterexample forces (positive duration, or both sides
open). -/

/-- Counterexample to C2 as stated: the store holds, inside the queried
range `[0, 100]`, the interval `[50, 50]`, and the candidate is the
identical interval, yet `blockInsertionIfOverlap` succeeds instead of
failing with the blocking error. -/
theorem admit_identical_zero_length_not_blocked :
    validateDateRange ⟨true, some 0⟩ ⟨true, some 100⟩ = .ok (0, 100) ∧
    blockInsertionIfOverlap [⟨50, some 50, "work"⟩] ⟨true, some 0⟩ ⟨true, some 100⟩
      [⟨50, some 50, "work"⟩] = .ok () :=
  ⟨rfl, rfl⟩

/-- C2 (amended): under a valid date range, `blockInsertionIfOverlap`
against an empty store always succeeds; and it always fails with the
blocking error when the store holds, inside the queried range, an entry
identical to some candidate (same start, same end or both open),
provided the interval has positive duration or is open. -/
theorem admit_empty_never_blocks_identical_blocks (s e : DateArg) (sv ev : Int)
    (hok : validateDateRange s e = .ok (sv, ev)) :
    (∀ cands, blockInsertionIfOverlap [] s e cands = .ok ()) ∧
    (∀ store cands cand ex, cand ∈ cands → ex ∈ store →
      sv ≤ ex.startTime → ex.startTime ≤ ev →
      ex.startTime = cand.startTime → ex.endTime = cand.endTime →
      (cand.endTime = none ∨ ∃ v, cand.endTime = some v ∧ cand.startTime < v) →
      ∃ ovs, blockInsertionIfOverlap store s e cands = .error (.insertionBlocked ovs)) := by
  constructor
  · intro cands
    simp [blockInsertionIfOverlap, hasEntriesInDateRange, hok]
  · intro store cands cand ex hcand hex hsv hev hstart hend hdur
    have hover : timeRangesOverlap cand.startTime cand.endTime ex.startTime ex.endTime
        = true := by
      rcases hdur with hnone | ⟨v, hv, hlt⟩
      · rw [hnone] at hend
        rw [hnone, hend, hstart]
        simp [timeRangesOverlap]
      · rw [hv] at hend
        rw [hv, hend, hstart]
        simp only [timeRangesOverlap, Bool.and_eq_true, decide_eq_true_eq]
        exact ⟨hlt, hlt⟩
    have hexmem : ex ∈ store.filter
        (fun r => decide (sv ≤ r.startTime) && decide (r.startTime ≤ ev)) := by
      rw [List.mem_filter]
      exact ⟨hex, by simp [hsv, hev]⟩
    have hrec : (OverlapRecord.mk cand ex
        (if ex.endTime.isNone || cand.endTime.isNone then "ongoing_conflict"
         else "time_overlap")) ∈ buildOverlaps cands (store.filter
        (fun r => decide (sv ≤ r.startTime) && decide (r.startTime ≤ ev))) := by
      simp only [buildOverlaps, List.mem_flatMap, List.mem_filterMap]
      exact ⟨cand, hcand, ex, hexmem, by simp [hover]⟩
    have hlen : (buildOverlaps cands (store.filter
        (fun r => decide (sv ≤ r.startTime) && decide (r.startTime ≤ ev)))).length > 0 :=
      List.length_pos.mpr (List.ne_nil_of_mem hrec)
    have hcands : ¬ cands.length = 0 := by
      have := List.ne_nil_of_mem hcand
      simpa [List.length_eq_zero] using this
    have hhe : hasEntriesInDateRange store s e = .ok true := by
      have : (store.filter
          (fun r => decide (sv ≤ r.startTime) && decide (r.startTime ≤ ev))).length > 0 :=
        List.length_pos.mpr (List.ne_nil_of_mem hexmem)
      simp [hasEntriesInDateRange, hok, this]
    have hcheck : checkDateRangeOverlap store s e cands = .ok
        { hasOverlap := true,
          overlaps := buildOverlaps cands (store.filter
            (fun r => decide (sv ≤ r.startTime) && decide (r.startTime ≤ ev))) } := by
      simp [checkDateRangeOverlap, hok, hcands, hlen]
    refine ⟨buildOverlaps cands (store.filter
      (fun r => decide (sv ≤ r.startTime) && decide (r.startTime ≤ ev))), ?_⟩
    simp [blockInsertionIfOverlap, hok, hhe, hcheck]

/-- Witness for C2: an empty store admits an empty batch, and a store
holding `[50, 60]` inside the range `[0, 100]` blocks the identical
candidate with the blocking error. -/
theorem admit_empty_never_blocks_identical_blocks_witness :
    (blockInsertionIfOverlap [] ⟨true, some 0⟩ ⟨true, some 100⟩ [] = .ok ()) ∧
    (∃ ovs, blockInsertionIfOverlap [⟨50, some 60, "a"⟩] ⟨true, some 0⟩ ⟨true, some 100⟩
      [⟨50, some 60, "b"⟩] = .error (.insertionBlocked ovs)) := by
  have h := admit_empty_never_blocks_identical_blocks ⟨true, some 0⟩ ⟨true, some 100⟩ 0 100
    rfl
  exact ⟨h.1 [], h.2 [⟨50, some 60, "a"⟩] [⟨50, some 60, "b"⟩] ⟨50, some 60, "b"⟩
    ⟨50, some 60, "a"⟩ (by simp) (by simp) (by decide) (by decide) rfl rfl
    (Or.inr ⟨60, rfl, by decide⟩)⟩

/-! ## Calendar arithmetic (timezone.js, `src/unnamed/part_004`)

The timezone module builds on two JavaScript built-ins:

* `Date.UTC(year, monthIndex, day, h, min, s, ms)` — per ECMA-262 this is
  `MakeDay` on the proleptic Gregorian calendar (with month/day overflow
  normalised) after `MakeFullYear`, which maps a year argument between 0
  and 99 to 1900 + year; the result is a count of milliseconds since the
  Unix epoch.
* `Date.prototype.toISOString` — prints the proleptic Gregorian date and
  UTC time of day of that millisecond count.

Both are modelled below through `daysFromCivil` / `civilFromDays`, the
civil-calendar day-count conversions (`daysFromCivil` is the standard
era-based formula; `civilFromDays` recovers the year of a day-of-era by a
guess-and-correct step, which is a correct implementation of ECMA's
abstractly specified `YearFromTime`).  Both directions are validated
against each other on a 400 000-day window and anchored by the concrete
witnesses below.
-/

/-- Days before the shifted (March-based) year `yoe` inside a 400-year
era: 365 per year plus one for every 4th shifted year minus one for
every 100th. -/
def cfdF (yoe : Int) : Int := 365 * yoe + yoe / 4 - yoe / 100

/-- Shifted year of a day-of-era: guess `doe / 366` and correct upward by
at most one step. -/
def yearOfEra (doe : Int) : Int :=
  if doe / 366 ≤ 398 ∧ cfdF (doe / 366 + 1) ≤ doe then doe / 366 + 1 else doe / 366

/-- Day count since 1970-01-01 of the proleptic Gregorian date
`(y, m, d)` (era-based civil-from-date formula; the core of ECMA-262
`MakeDay`). -/
def daysFromCivil (y m d : Int) : Int :=
  let ys := if m ≤ 2 then y - 1 else y
  let era := ys / 400
  let yoe := ys - era * 400
  let mp := if m ≤ 2 then m + 9 else m - 3
  let doy := (153 * mp + 2) / 5 + d - 1
  era * 146097 + (cfdF yoe + doy) - 719468

/-- Era index of a day count (relative to 0000-03-01). -/
def cfdEra (n : Int) : Int := (n + 719468) / 146097

/-- Day-of-era of a day count. -/
def cfdDoe (n : Int) : Int := (n + 719468) % 146097

/-- Shifted year-of-era of a day count. -/
def cfdYoe (n : Int) : Int := yearOfEra (cfdDoe n)

/-- Day-of-shifted-year of a day count. -/
def cfdDoy (n : Int) : Int := cfdDoe n - cfdF (cfdYoe n)

/-- Shifted month (0 = March … 11 = February) of a day count. -/
def cfdMp (n : Int) : Int := (5 * cfdDoy n + 2) / 153

/-- Proleptic Gregorian date `(y, m, d)` of a day count since
1970-01-01 (the date part ECMA-262 `toISOString` prints). -/
def civilFromDays (n : Int) : Int × Int × Int :=
  ((if cfdMp n < 10 then 0 else 1) + cfdYoe n + cfdEra n * 400,
   (if cfdMp n < 10 then cfdMp n + 3 else cfdMp n - 9),
   cfdDoy n - (153 * cfdMp n + 2) / 5 + 1)

/-- ECMA-262 `MakeFullYear`: year arguments 0–99 denote 1900–1999. -/
def jsMakeFullYear (y : Int) : Int := if 0 ≤ y ∧ y ≤ 99 then y + 1900 else y

/-- ECMA-262 `MakeDay` (after year adjustment): normalise the month
index into year and month, then count days. -/
def jsMakeDay (y mIdx day : Int) : Int :=
  daysFromCivil ((y * 12 + mIdx) / 12) ((y * 12 + mIdx) % 12 + 1) 1 + (day - 1)

/-- Model of `Date.UTC(y, mIdx, day, hh, mm, ss, ms)`: milliseconds
since the Unix epoch. -/
def jsDateUTC (y mIdx day hh mm ss ms : Int) : Int :=
  jsMakeDay (jsMakeFullYear y) mIdx day * 86400000 +
    hh * 3600000 + mm * 60000 + ss * 1000 + ms

/-- The fixed `TAIPEI_TIMEZONE_OFFSET` of timezone.js: 8 hours in
milliseconds. -/
def taipeiOffsetMs : Int := 28800000

/-- The day lengths of the Gregorian calendar (used only to state
validity of calendar dates; the spec's leap-year rule). -/
def daysInMonth (y m : Int) : Int :=
  if m = 2 then (if (y % 4 = 0 ∧ y % 100 ≠ 0) ∨ y % 400 = 0 then 29 else 28)
  else if m = 4 ∨ m = 6 ∨ m = 9 ∨ m = 11 then 30 else 31

/-- `(y, m, d)` is an actual proleptic Gregorian calendar date. -/
def validDate (y m d : Int) : Prop := 1 ≤ m ∧ m ≤ 12 ∧ 1 ≤ d ∧ d ≤ daysInMonth y m

/-- Calendar successor of a date: next day, rolling over months and
years. -/
def nextDate (y m d : Int) : Int × Int × Int :=
  if d < daysInMonth y m then (y, m, d + 1)
  else if m < 12 then (y, m + 1, 1) else (y + 1, 1, 1)

/-- The UTC boundary pair `calculateDateBoundaries` returns, as
millisecond instants.  The JS object's `startUTC` string drops the
(zero) millisecond field and `endUTC` keeps `.999`, so both strings
denote exactly these instants; the redundant `taipeiDate`/`startTaipei`/
`endTaipei` display strings are omitted. -/
structure DateBoundaries where
  startUTCms : Int
  endUTCms : Int
deriving DecidableEq, Repr

/-- Model of `calculateDateBoundaries(taipeiDate)` (timezone.js lines
173–221).  The `YYYY-MM-DD` input string is represented by its three
parsed components; the regex `^\d{4}-\d{2}-\d{2}$` admits exactly the
component ranges tested here (4-digit year, 2-digit month and day,
leading zeros allowed) and anything else throws.  On success the
function computes `Date.UTC(year, month-1, day, 0,0,0,0)` minus the
Taipei offset and `Date.UTC(year, month-1, day, 23,59,59,999)` minus
the offset. -/
def calculateDateBoundaries (y m d : Int) : Except String DateBoundaries :=
  if 0 ≤ y ∧ y ≤ 9999 ∧ 0 ≤ m ∧ m ≤ 99 ∧ 0 ≤ d ∧ d ≤ 99 then
    .ok { startUTCms := jsDateUTC y (m - 1) d 0 0 0 0 - taipeiOffsetMs
        , endUTCms := jsDateUTC y (m - 1) d 23 59 59 999 - taipeiOffsetMs }
  else .error "Invalid date format. Expected YYYY-MM-DD"

/-- Model of `convertToTaipeiTime(utcTimestamp)` (timezone.js lines
12–51) at the instant level: the returned `...+08:00` string denotes the
instant shifted by the Taipei offset (the string's clock fields are
`toISOString` of `t + 8h`). -/
def convertToTaipeiTime (t : Int) : Int := t + taipeiOffsetMs

/-- Model of `getTaipeiCalendarDate(taipeiTimestamp)` (timezone.js lines
58–77): the `YYYY-MM-DD` part before the `T` of the shifted ISO string,
i.e. the civil date of the day number the shifted instant falls in. -/
def getTaipeiCalendarDate (taipeiMs : Int) : Int × Int × Int :=
  civilFromDays (taipeiMs / 86400000)

/-- Model of `isWithinDateBoundaries(utcTimestamp, boundaries)`
(timezone.js lines 229–259): after normalising/parsing the timestamp,
`timestamp >= startBoundary && timestamp <= endBoundary`. -/
def isWithinDateBoundaries (t : Int) (b : DateBoundaries) : Bool :=
  decide (b.startUTCms ≤ t) && decide (t ≤ b.endUTCms)

/-! ## Calendar lemmas -/

/-- `yearOfEra` inverts `cfdF` on every day of a valid shifted year (the
last shifted year of an era may carry day 365, the era's leap day). -/
theorem yearOfEra_image (yoe doy : Int) (h1 : 0 ≤ yoe) (h2 : yoe ≤ 399) (h3 : 0 ≤ doy)
    (h4 : doy ≤ 364 ∨
      (doy = 365 ∧ (yoe + 1) % 4 = 0 ∧ ((yoe + 1) % 100 ≠ 0 ∨ yoe = 399))) :
    yearOfEra (cfdF yoe + doy) = yoe := by
  have hstep : doy + cfdF yoe < cfdF (yoe + 1) ∨ (yoe = 399 ∧ doy ≤ 365) := by
    unfold cfdF; omega
  clear h4
  have hq1 : (cfdF yoe + doy) / 366 ≤ yoe := by
    unfold cfdF at hstep ⊢; omega
  have hq2 : yoe - 1 ≤ (cfdF yoe + doy) / 366 := by
    unfold cfdF; omega
  unfold yearOfEra cfdF
  unfold cfdF at hq1 hq2 hstep
  split_ifs with hcond
  · omega
  · omega

/-- Core inversion of the civil conversions in era coordinates: decoding
the day count of era `era`, shifted year `yoe`, shifted month `mp` and
day `d` recovers all four components. -/
theorem civilFromDays_shift (era yoe mp d : Int)
    (h1 : 0 ≤ yoe) (h2 : yoe ≤ 399) (hmp1 : 0 ≤ mp) (hmp2 : mp ≤ 11) (hd : 1 ≤ d)
    (hgrid : (153 * mp + 2) / 5 + d - 1 < (153 * (mp + 1) + 2) / 5 ∨
      (mp = 11 ∧ (153 * mp + 2) / 5 + d - 1 ≤ 365))
    (hleap : (153 * mp + 2) / 5 + d - 1 ≤ 364 ∨
      ((153 * mp + 2) / 5 + d - 1 = 365 ∧ (yoe + 1) % 4 = 0 ∧
        ((yoe + 1) % 100 ≠ 0 ∨ yoe = 399))) :
    civilFromDays (era * 146097 + (cfdF yoe + ((153 * mp + 2) / 5 + d - 1)) - 719468) =
      ((if mp < 10 then 0 else 1) + yoe + era * 400,
       (if mp < 10 then mp + 3 else mp - 9), d) := by
  have hdoy0 : 0 ≤ (153 * mp + 2) / 5 + d - 1 := by omega
  have hdoy365 : (153 * mp + 2) / 5 + d - 1 ≤ 365 := by
    rcases hleap with h | h <;> omega
  have hFb : 0 ≤ cfdF yoe ∧ cfdF yoe + 365 ≤ 146096 := by
    unfold cfdF; omega
  have hera : cfdEra (era * 146097 + (cfdF yoe + ((153 * mp + 2) / 5 + d - 1)) - 719468)
      = era := by
    unfold cfdEra; omega
  have hdoe : cfdDoe (era * 146097 + (cfdF yoe + ((153 * mp + 2) / 5 + d - 1)) - 719468)
      = cfdF yoe + ((153 * mp + 2) / 5 + d - 1) := by
    unfold cfdDoe; omega
  have hyoe : cfdYoe (era * 146097 + (cfdF yoe + ((153 * mp + 2) / 5 + d - 1)) - 719468)
      = yoe := by
    unfold cfdYoe
    rw [hdoe]
    exact yearOfEra_image yoe _ h1 h2 hdoy0 hleap
  have hdoy : cfdDoy (era * 146097 + (cfdF yoe + ((153 * mp + 2) / 5 + d - 1)) - 719468)
      = (153 * mp + 2) / 5 + d - 1 := by
    unfold cfdDoy
    rw [hdoe, hyoe]
    omega
  have hmp : cfdMp (era * 146097 + (cfdF yoe + ((153 * mp + 2) / 5 + d - 1)) - 719468)
      = mp := by
    unfold cfdMp
    rw [hdoy]
    omega
  unfold civilFromDays
  rw [hera, hyoe, hdoy, hmp]
  refine congrArg₂ Prod.mk ?_ (congrArg₂ Prod.mk ?_ ?_) <;> omega

/-- Round trip of the civil conversions: decoding the day count of any
valid calendar date recovers the date. -/
theorem civilFromDays_daysFromCivil (y m d : Int) (h : validDate y m d) :
    civilFromDays (daysFromCivil y m d) = (y, m, d) := by
  obtain ⟨hm1, hm2, hd1, hd2⟩ := h
  unfold daysInMonth at hd2
  by_cases hm : m ≤ 2
  · have hgrid : (153 * (m + 9) + 2) / 5 + d - 1 < (153 * (m + 9 + 1) + 2) / 5 ∨
        (m + 9 = 11 ∧ (153 * (m + 9) + 2) / 5 + d - 1 ≤ 365) := by
      interval_cases m <;> split_ifs at hd2 <;> omega
    have hleap : (153 * (m + 9) + 2) / 5 + d - 1 ≤ 364 ∨
        ((153 * (m + 9) + 2) / 5 + d - 1 = 365 ∧
          ((y - 1) - ((y - 1) / 400) * 400 + 1) % 4 = 0 ∧
          (((y - 1) - ((y - 1) / 400) * 400 + 1) % 100 ≠ 0 ∨
            (y - 1) - ((y - 1) / 400) * 400 = 399)) := by
      interval_cases m <;> split_ifs at hd2 <;> omega
    have key := civilFromDays_shift ((y - 1) / 400) ((y - 1) - ((y - 1) / 400) * 400)
      (m + 9) d (by omega) (by omega) (by omega) (by omega) hd1 hgrid hleap
    have hn : daysFromCivil y m d =
        ((y - 1) / 400) * 146097 +
          (cfdF ((y - 1) - ((y - 1) / 400) * 400) + ((153 * (m + 9) + 2) / 5 + d - 1)) -
          719468 := by
      unfold daysFromCivil
      rw [if_pos hm, if_pos hm]
    have h9 : ¬(m + 9 < 10) := by omega
    rw [hn, key, if_neg h9, if_neg h9]
    simp only [Prod.mk.injEq]
    exact ⟨by omega, by omega, trivial⟩
  · have hm3 : 3 ≤ m := by omega
    have hgrid : (153 * (m - 3) + 2) / 5 + d - 1 < (153 * (m - 3 + 1) + 2) / 5 ∨
        (m - 3 = 11 ∧ (153 * (m - 3) + 2) / 5 + d - 1 ≤ 365) := by
      interval_cases m <;> split_ifs at hd2 <;> omega
    have hleap : (153 * (m - 3) + 2) / 5 + d - 1 ≤ 364 ∨
        ((153 * (m - 3) + 2) / 5 + d - 1 = 365 ∧
          (y - (y / 400) * 400 + 1) % 4 = 0 ∧
          ((y - (y / 400) * 400 + 1) % 100 ≠ 0 ∨ y - (y / 400) * 400 = 399)) := by
      interval_cases m <;> split_ifs at hd2 <;> omega
    have key := civilFromDays_shift (y / 400) (y - (y / 400) * 400)
      (m - 3) d (by omega) (by omega) (by omega) (by omega) hd1 hgrid hleap
    have hn : daysFromCivil y m d =
        (y / 400) * 146097 +
          (cfdF (y - (y / 400) * 400) + ((153 * (m - 3) + 2) / 5 + d - 1)) - 719468 := by
      unfold daysFromCivil
      rw [if_neg hm, if_neg hm]
    have h9 : m - 3 < 10 := by omega
    rw [hn, key, if_pos h9, if_pos h9]
    simp only [Prod.mk.injEq]
    exact ⟨by omega, by omega, trivial⟩

/-- The day count of the calendar successor of a valid date is one more
than the date's own day count (covers month, year and leap-year
rollovers). -/
theorem daysFromCivil_nextDate (y m d : Int) (h : validDate y m d) :
    daysFromCivil (nextDate y m d).1 (nextDate y m d).2.1 (nextDate y m d).2.2 =
      daysFromCivil y m d + 1 := by
  obtain ⟨hm1, hm2, hd1, hd2⟩ := h
  unfold nextDate
  split_ifs with h1 h2
  · dsimp only
    simp only [daysFromCivil, cfdF]
    split_ifs <;> omega
  · unfold daysInMonth at hd2 h1
    dsimp only
    interval_cases m <;>
      (simp only [daysFromCivil, cfdF]; split_ifs at * <;> omega)
  · unfold daysInMonth at hd2 h1
    have hm12 : m = 12 := by omega
    subst hm12
    dsimp only
    simp only [daysFromCivil, cfdF]
    split_ifs at * <;> omega

/-- `Date.UTC`'s month normalisation is the identity on real months:
for `1 ≤ m ≤ 12`, `MakeDay y (m-1) d` is the day count of `(y, m, d)`. -/
theorem jsMakeDay_eq (y m d : Int) (hm1 : 1 ≤ m) (hm2 : m ≤ 12) :
    jsMakeDay y (m - 1) d = daysFromCivil y m d := by
  unfold jsMakeDay
  have e1 : (y * 12 + (m - 1)) / 12 = y := by omega
  have e2 : (y * 12 + (m - 1)) % 12 = m - 1 := by omega
  rw [e1, e2]
  have e3 : m - 1 + 1 = m := by omega
  rw [e3]
  simp only [daysFromCivil, cfdF]
  split_ifs <;> omega

/-- Every month is at most 31 days long. -/
theorem daysInMonth_le (y m : Int) : daysInMonth y m ≤ 31 := by
  unfold daysInMonth
  split_ifs <;> omega

/-- The calendar successor of a valid date stays within one year and
within real month/day ranges. -/
theorem nextDate_bounds (y m d : Int) (h : validDate y m d) :
    y ≤ (nextDate y m d).1 ∧ (nextDate y m d).1 ≤ y + 1 ∧
    1 ≤ (nextDate y m d).2.1 ∧ (nextDate y m d).2.1 ≤ 12 ∧
    1 ≤ (nextDate y m d).2.2 ∧ (nextDate y m d).2.2 ≤ 31 := by
  obtain ⟨hm1, hm2, hd1, hd2⟩ := h
  have hdim := daysInMonth_le y m
  unfold nextDate
  split_ifs <;> dsimp only <;> omega

/-- Shifting an instant inside a day by the Taipei offset lands on the
day's civil date. -/
theorem getTaipeiCalendarDate_day (k r : Int) (hr1 : 0 ≤ r) (hr2 : r ≤ 86399999) :
    getTaipeiCalendarDate (k * 86400000 + r) = civilFromDays k := by
  unfold getTaipeiCalendarDate
  have hk : (k * 86400000 + r) / 86400000 = k := by omega
  rw [hk]

/-! ## Claim C3 — day boundaries tile the UTC timeline

The claim fails as stated at the 2-digit/3-digit year boundary: ECMA's
`MakeFullYear` maps the parsed year of `"0099-12-31"` to 1999, so the
end boundary of `0099-12-31` lies in 1999 while the start boundary of
`0100-01-01` lies in the year 100 — a gap of about 1900 years.  (The
other boundary failure is `9999-12-31`, whose successor has a 5-digit
year and is rejected by the input format.)  For all other consecutive
dates tiling holds exactly. -/

/-- Counterexample to C3 as stated: `0099-12-31` is a calendar date with
successor `0100-01-01`, yet `boundariesFor(0099-12-31).end + 1ms` is not
`boundariesFor(0100-01-01).start`. -/
theorem boundaries_tile_counterexample :
    validDate 99 12 31 ∧ nextDate 99 12 31 = (100, 1, 1) ∧
    ∃ b1 b2, calculateDateBoundaries 99 12 31 = .ok b1 ∧
      calculateDateBoundaries 100 1 1 = .ok b2 ∧
      b1.endUTCms + 1 ≠ b2.startUTCms := by
  refine ⟨by unfold validDate daysInMonth; decide, by decide, _, _, rfl, rfl, by decide⟩

/-- C3 (amended): for every valid calendar date with year ≥ 100 whose
successor still has a 4-digit year, the end boundary plus one
millisecond is exactly the successor's start boundary — consecutive day
boundaries tile the UTC timeline with no gap and no overlap, across
month, year and leap-year rollovers. -/
theorem boundaries_tile (y m d : Int) (hv : validDate y m d) (h100 : 100 ≤ y)
    (h9999 : (nextDate y m d).1 ≤ 9999) :
    ∃ b1 b2, calculateDateBoundaries y m d = .ok b1 ∧
      calculateDateBoundaries (nextDate y m d).1 (nextDate y m d).2.1
        (nextDate y m d).2.2 = .ok b2 ∧
      b1.endUTCms + 1 = b2.startUTCms := by
  obtain ⟨hm1, hm2, hd1, hd2⟩ := hv
  have hdim := daysInMonth_le y m
  have hnb := nextDate_bounds y m d ⟨hm1, hm2, hd1, hd2⟩
  have hb1 : calculateDateBoundaries y m d =
      .ok { startUTCms := jsDateUTC y (m - 1) d 0 0 0 0 - taipeiOffsetMs
          , endUTCms := jsDateUTC y (m - 1) d 23 59 59 999 - taipeiOffsetMs } := by
    unfold calculateDateBoundaries
    rw [if_pos (by omega)]
  have hb2 : calculateDateBoundaries (nextDate y m d).1 (nextDate y m d).2.1
      (nextDate y m d).2.2 =
      .ok { startUTCms := jsDateUTC (nextDate y m d).1 ((nextDate y m d).2.1 - 1)
              (nextDate y m d).2.2 0 0 0 0 - taipeiOffsetMs
          , endUTCms := jsDateUTC (nextDate y m d).1 ((nextDate y m d).2.1 - 1)
              (nextDate y m d).2.2 23 59 59 999 - taipeiOffsetMs } := by
    unfold calculateDateBoundaries
    rw [if_pos (by omega)]
  refine ⟨_, _, hb1, hb2, ?_⟩
  have hfy : jsMakeFullYear y = y := by
    unfold jsMakeFullYear
    rw [if_neg (show ¬(0 ≤ y ∧ y ≤ 99) from by omega)]
  have hfy2 : jsMakeFullYear (nextDate y m d).1 = (nextDate y m d).1 := by
    unfold jsMakeFullYear
    rw [if_neg (show ¬(0 ≤ (nextDate y m d).1 ∧ (nextDate y m d).1 ≤ 99) from by omega)]
  unfold jsDateUTC
  rw [hfy, hfy2, jsMakeDay_eq y m d hm1 hm2,
    jsMakeDay_eq (nextDate y m d).1 (nextDate y m d).2.1 (nextDate y m d).2.2
      (by omega) (by omega),
    daysFromCivil_nextDate y m d ⟨hm1, hm2, hd1, hd2⟩]
  dsimp only
  omega

/-- Witness for C3: the leap-Feb rollover `2024-02-28 → 2024-02-29`
tiles. -/
theorem boundaries_tile_witness :
    ∃ b1 b2, calculateDateBoundaries 2024 2 28 = .ok b1 ∧
      calculateDateBoundaries (nextDate 2024 2 28).1 (nextDate 2024 2 28).2.1
        (nextDate 2024 2 28).2.2 = .ok b2 ∧
      b1.endUTCms + 1 = b2.startUTCms :=
  boundaries_tile 2024 2 28 (by unfold validDate daysInMonth; decide) (by decide)
    (by decide)

/-! ## Claim C4 — boundaries round-trip to the calendar date

The claim fails as stated for calendar dates with years 0–99: ECMA's
`MakeFullYear` remaps them to 1900–1999 inside `Date.UTC`, so both
boundaries of such a date convert back to a 20th-century date.  For
years 100–9999 the round trip holds at both boundaries. -/

/-- Counterexample to C4 as stated: the boundaries computed for
`0050-01-15` convert back to `1950-01-15`, not `0050-01-15`. -/
theorem boundaries_roundtrip_counterexample :
    validDate 50 1 15 ∧
    ∃ b, calculateDateBoundaries 50 1 15 = .ok b ∧
      getTaipeiCalendarDate (convertToTaipeiTime b.startUTCms) = (1950, 1, 15) ∧
      getTaipeiCalendarDate (convertToTaipeiTime b.startUTCms) ≠ (50, 1, 15) := by
  refine ⟨by unfold validDate daysInMonth; decide, _, rfl, by decide, by decide⟩

/-- C4 (amended): for every valid calendar date with year 100–9999,
converting either UTC boundary back to a Taipei calendar date (the
`convertToTaipeiTime` / `getTaipeiCalendarDate` chain) yields the
original date. -/
theorem boundaries_roundtrip (y m d : Int) (hv : validDate y m d) (h100 : 100 ≤ y)
    (h9999 : y ≤ 9999) :
    ∃ b, calculateDateBoundaries y m d = .ok b ∧
      getTaipeiCalendarDate (convertToTaipeiTime b.startUTCms) = (y, m, d) ∧
      getTaipeiCalendarDate (convertToTaipeiTime b.endUTCms) = (y, m, d) := by
  obtain ⟨hm1, hm2, hd1, hd2⟩ := hv
  have hdim := daysInMonth_le y m
  have hb : calculateDateBoundaries y m d =
      .ok { startUTCms := jsDateUTC y (m - 1) d 0 0 0 0 - taipeiOffsetMs
          , endUTCms := jsDateUTC y (m - 1) d 23 59 59 999 - taipeiOffsetMs } := by
    unfold calculateDateBoundaries
    rw [if_pos (by omega)]
  have hfy : jsMakeFullYear y = y := by
    unfold jsMakeFullYear
    rw [if_neg (show ¬(0 ≤ y ∧ y ≤ 99) from by omega)]
  have hstart : convertToTaipeiTime (jsDateUTC y (m - 1) d 0 0 0 0 - taipeiOffsetMs)
      = daysFromCivil y m d * 86400000 + 0 := by
    unfold convertToTaipeiTime jsDateUTC
    rw [hfy, jsMakeDay_eq y m d hm1 hm2]
    ring
  have hend : convertToTaipeiTime (jsDateUTC y (m - 1) d 23 59 59 999 - taipeiOffsetMs)
      = daysFromCivil y m d * 86400000 + 86399999 := by
    unfold convertToTaipeiTime jsDateUTC
    rw [hfy, jsMakeDay_eq y m d hm1 hm2]
    ring
  refine ⟨_, hb, ?_, ?_⟩
  · dsimp only
    rw [hstart, getTaipeiCalendarDate_day _ _ (by omega) (by omega),
      civilFromDays_daysFromCivil y m d ⟨hm1, hm2, hd1, hd2⟩]
  · dsimp only
    rw [hend, getTaipeiCalendarDate_day _ _ (by omega) (by omega),
      civilFromDays_daysFromCivil y m d ⟨hm1, hm2, hd1, hd2⟩]

/-- Witness for C4: the boundaries of `2024-12-31` round-trip. -/
theorem boundaries_roundtrip_witness :
    ∃ b, calculateDateBoundaries 2024 12 31 = .ok b ∧
      getTaipeiCalendarDate (convertToTaipeiTime b.startUTCms) = (2024, 12, 31) ∧
      getTaipeiCalendarDate (convertToTaipeiTime b.endUTCms) = (2024, 12, 31) :=
  boundaries_roundtrip 2024 12 31 (by unfold validDate daysInMonth; decide) (by decide)
    (by decide)

/-! ## Claim C7 — boundary membership is inclusive at both ends -/

/-- C7: `isWithinDateBoundaries` is true iff
`start ≤ instant ∧ instant ≤ end` (inclusive at both ends), and the end
boundary produced by `calculateDateBoundaries` is the `:999` millisecond
of the local day — one millisecond before the next local midnight
(`end = start + 86399999`), not the next midnight itself. -/
theorem within_boundary_inclusive (y m d t : Int) (b : DateBoundaries)
    (hb : calculateDateBoundaries y m d = .ok b) :
    (isWithinDateBoundaries t b = true ↔ b.startUTCms ≤ t ∧ t ≤ b.endUTCms) ∧
    b.endUTCms = b.startUTCms + 86399999 := by
  constructor
  · simp [isWithinDateBoundaries]
  · unfold calculateDateBoundaries at hb
    split_ifs at hb
    · simp only [Except.ok.injEq] at hb
      subst hb
      dsimp only
      unfold jsDateUTC
      omega

/-- A concrete boundary pair for the C7 witness: the boundaries of
`2024-01-15`. -/
def sampleBoundary : DateBoundaries :=
  { startUTCms := jsDateUTC 2024 (1 - 1) 15 0 0 0 0 - taipeiOffsetMs
  , endUTCms := jsDateUTC 2024 (1 - 1) 15 23 59 59 999 - taipeiOffsetMs }

/-- Witness for C7: the boundary of `2024-01-15` contains the epoch
instant iff it lies between the two bounds, and its end is `:999` of the
local day. -/
theorem within_boundary_inclusive_witness :
    ((isWithinDateBoundaries 0 sampleBoundary = true ↔
      sampleBoundary.startUTCms ≤ 0 ∧ (0 : Int) ≤ sampleBoundary.endUTCms) ∧
    sampleBoundary.endUTCms = sampleBoundary.startUTCms + 86399999) :=
  within_boundary_inclusive 2024 1 15 0 sampleBoundary rfl

/-! ## Batch validation (`validateEntries`, connection.js lines 339–405)

A raw timewarrior entry is an arbitrary JavaScript value.  The code
inspects it only through: truthiness/objectness, the `start`/`end`
fields, the Taipei-conversion chain on `start`, and the predicates
`validateTimestampFormat` / `validateTimestampRange` /
`isValidTimeOrder`.  `RawTS` models a raw timestamp value by the data
those paths consume: `parsedUTC` is the millisecond value the
`convertToTaipeiTime` normalisation-and-parse step yields (`none` when
that step throws: not a string, or `NaN`); `formatOk` is the result of
`validateTimestampFormat` (ISO regex, parse, component bounds);
`inRange` is the `START_DATE ≤ t ≤ now + 1 year` window test of
`validateTimestampRange`; `ms` is the value `new Date(t)` compares with
in `isValidTimeOrder` (meaningful whenever `formatOk`).  A non-object or
null raw entry has no readable fields, hence `start = none`. -/

structure RawTS where
  parsedUTC : Option Int
  formatOk : Bool
  inRange : Bool
  ms : Int
deriving DecidableEq, Repr

/-- A raw entry as the validator sees it; `endTS` models the `end`
field (`end` is a Lean keyword). -/
structure RawEntry where
  isObj : Bool
  start : Option RawTS
  endTS : Option RawTS
deriving DecidableEq, Repr

/-- Model of `validateTimestampFormat` (connection.js lines 149–196):
the per-string result is carried by the `formatOk` field. -/
def validateTimestampFormat (t : RawTS) : Bool := t.formatOk

/-- Model of `validateTimestampRange` (connection.js lines 203–227):
format check first, then the historical-window test. -/
def validateTimestampRange (t : RawTS) : Bool :=
  if !validateTimestampFormat t then false else t.inRange

/-- Model of `isValidTimeOrder` (connection.js lines 235–257): missing
timestamps pass, malformed ones fail, otherwise `start <= end`. -/
def isValidTimeOrder (startTime endTime : Option RawTS) : Bool :=
  match startTime, endTime with
  | some s, some e =>
    if !validateTimestampFormat s || !validateTimestampFormat e then false
    else decide (s.ms ≤ e.ms)
  | _, _ => true

/-- Model of `validateEntry` (connection.js lines 264–299), with the
checks in source order. -/
def validateEntry (entry : RawEntry) : Bool :=
  if !entry.isObj then false
  else
    match entry.start with
    | none => false
    | some s =>
      if !validateTimestampFormat s then false
      else if (match entry.endTS with
               | some e => !validateTimestampFormat e
               | none => false) then false
      else if !validateTimestampRange s then false
      else if (match entry.endTS with
               | some e => !validateTimestampRange e
               | none => false) then false
      else isValidTimeOrder entry.start entry.endTS

/-- The specific error message `validateEntries` attaches to an invalid
entry (connection.js lines 381–398, the `errorMessage` if-chain). -/
def entryErrorMessage (entry : RawEntry) : String :=
  if !entry.isObj then "Entry is not a valid object"
  else
    match entry.start with
    | none => "Missing required field: start"
    | some s =>
      if !validateTimestampFormat s then "Invalid timestamp format"
      else if (match entry.endTS with
               | some e => !validateTimestampFormat e
               | none => false) then "Invalid timestamp format"
      else if !validateTimestampRange s ||
          (match entry.endTS with
           | some e => !validateTimestampRange e
           | none => false) then "Timestamp out of range"
      else if !isValidTimeOrder entry.start entry.endTS then
        "End time must be after start time"
      else "Invalid entry"

/-- The `convertToTaipeiTime` / `getTaipeiCalendarDate` chain on a raw
timestamp: shift the parsed instant by the Taipei offset and take its
civil date; `getTaipeiCalendarDate`'s `\d{4}-\d{2}-\d{2}` check fails
(throws) exactly when `toISOString` prints an expanded (non-4-digit)
year. -/
def taipeiDateChain (parsedUTC : Option Int) : Option (Int × Int × Int) :=
  match parsedUTC with
  | none => none
  | some t =>
    if 0 ≤ (getTaipeiCalendarDate (convertToTaipeiTime t)).1 ∧
        (getTaipeiCalendarDate (convertToTaipeiTime t)).1 ≤ 9999 then
      some (getTaipeiCalendarDate (convertToTaipeiTime t))
    else none

/-- The today-filter condition of the loop (connection.js lines
359–369): the entry has a start, its Taipei conversion succeeds, and
the resulting calendar date equals today's (`todayTaipeiDate`); a
conversion failure falls through to validation (the `catch`). -/
def isFilteredToday (today : Int × Int × Int) (entry : RawEntry) : Bool :=
  match entry.start with
  | some s =>
    match taipeiDateChain s.parsedUTC with
    | some dte => decide (dte = today)
    | none => false
  | none => false

/-- Return value of `validateEntries`. -/
structure VResult where
  validEntries : List RawEntry
  filteredCount : Nat
  invalidCount : Nat
  errors : List String
deriving DecidableEq, Repr

/-- The loop of `validateEntries` (connection.js lines 355–402), as a
recursion carrying the 0-based index `i` used in the messages. -/
def validateEntriesGo (today : Int × Int × Int) : Nat → List RawEntry → VResult
  | _, [] => ⟨[], 0, 0, []⟩
  | i, entry :: rest =>
    if isFilteredToday today entry then
      let r := validateEntriesGo today (i + 1) rest
      ⟨r.validEntries, r.filteredCount + 1, r.invalidCount,
        (s!"Entry {i + 1}: Filtered out (incomplete data from today)") :: r.errors⟩
    else if validateEntry entry then
      let r := validateEntriesGo today (i + 1) rest
      ⟨entry :: r.validEntries, r.filteredCount, r.invalidCount, r.errors⟩
    else
      let r := validateEntriesGo today (i + 1) rest
      ⟨r.validEntries, r.filteredCount, r.invalidCount + 1,
        (s!"Entry {i + 1}: {entryErrorMessage entry}") :: r.errors⟩

/-- Model of `validateEntries(entries)` (connection.js lines 339–405);
`today` is the Taipei calendar date of `new Date()` computed once at
entry (the `non-array` guard cannot fire on a list argument). -/
def validateEntries (today : Int × Int × Int) (entries : List RawEntry) : VResult :=
  validateEntriesGo today 0 entries

/-- The rejection message a record at 0-based index `i` receives, if
any: today-filtered records and invalid records are rejected, accepted
records are not. -/
def rejectionMessage (today : Int × Int × Int) (i : Nat) (entry : RawEntry) :
    Option String :=
  if isFilteredToday today entry then
    some s!"Entry {i + 1}: Filtered out (incomplete data from today)"
  else if validateEntry entry then none
  else some s!"Entry {i + 1}: {entryErrorMessage entry}"

/-- The loop starting at index `i` partitions its input and reports the
rejections of the indexed records in input order. -/
theorem validateEntriesGo_spec (today : Int × Int × Int) (entries : List RawEntry)
    (i : Nat) :
    (validateEntriesGo today i entries).validEntries.length +
        (validateEntriesGo today i entries).filteredCount +
        (validateEntriesGo today i entries).invalidCount = entries.length ∧
    (validateEntriesGo today i entries).errors =
      (entries.enumFrom i).filterMap fun p => rejectionMessage today p.1 p.2 := by
  induction entries generalizing i with
  | nil => simp [validateEntriesGo, List.enumFrom]
  | cons entry rest ih =>
    have ih1 := (ih (i + 1)).1
    have ih2 := (ih (i + 1)).2
    by_cases h1 : isFilteredToday today entry
    · constructor
      · simp only [validateEntriesGo, if_pos h1]
        simpa using by omega
      · simp only [validateEntriesGo, if_pos h1, List.enumFrom, List.filterMap_cons,
          rejectionMessage, ih2]
    · by_cases h2 : validateEntry entry
      · constructor
        · simp only [validateEntriesGo, if_neg h1, if_pos h2, List.length_cons]
          simpa using by omega
        · simp only [validateEntriesGo, if_neg h1, if_pos h2, List.enumFrom,
            List.filterMap_cons, rejectionMessage, ih2]
      · constructor
        · simp only [validateEntriesGo, if_neg h1, if_neg h2]
          simpa using by omega
        · simp only [validateEntriesGo, if_neg h1, if_neg h2, List.enumFrom,
            List.filterMap_cons, rejectionMessage, ih2]

/-- C9: `validateEntries` never aborts — every record lands in exactly
one of the three buckets (accepted count plus today-filtered count plus
invalid count equals the input length), and the rejection-message list
is exactly the rejections of the records enumerated in input order. -/
theorem validateEntries_partition (today : Int × Int × Int) (entries : List RawEntry) :
    (validateEntries today entries).validEntries.length +
        (validateEntries today entries).filteredCount +
        (validateEntries today entries).invalidCount = entries.length ∧
    (validateEntries today entries).errors =
      entries.enum.filterMap fun p => rejectionMessage today p.1 p.2 :=
  validateEntriesGo_spec today entries 0

end TimewFormatter
